import Mathlib

/-!
Shallow embedding of the chess-finder prototype (Board.js / Point.js / Pieces.js).

Conventions of the embedding:
* JS numbers used as board indices are modelled as `Int` (ray deltas are negative).
* JS `null` / `undefined` values are modelled as `Option.none`.
* A JS `TypeError` crash (e.g. dereferencing `null`, or indexing into `undefined`)
  is modelled by returning `none` from an `Option`-valued function.
* JS string coercion `8 - number` on a rank character yields the digit for a digit
  character and `NaN` otherwise; `NaN` is modelled by the sentinel value `-1000`,
  which is far outside every bounds check, so each use of a `NaN` index reaches the
  same crash branch that JS reaches.
-/

inductive Color
  | white
  | black
deriving DecidableEq

inductive PieceType
  | pawn
  | bishop
  | knight
  | rook
  | king
  | queen
deriving DecidableEq

/-- Point.js: `class Point { constructor(file, rank) ... }`.  The source stores two
integer fields; the doc comment on `toAlgebraic` declares a8 = (0,0), h1 = (7,7). -/
structure Point where
  file : Int
  rank : Int
deriving DecidableEq

/-- Pieces.js `class Piece`: only the fields `type`, `color` and `point` are ever
read by the board logic; the tactical bookkeeping fields (`attackedBy`,
`defendedBy`, `isPinned`, ...) are declared in the source but never populated. -/
structure Piece where
  type : PieceType
  color : Color
  point : Point
deriving DecidableEq

/-- JS `s[i]` character access; out-of-range access yields `undefined`, modelled by
a NUL character that is neither a file letter nor a digit. -/
def jsCharAt (s : String) (i : Nat) : Char :=
  s.toList.getD i (Char.ofNat 0)

/-- JS `"abcdefgh".indexOf(letter)`: the position of the letter, or -1. -/
def jsFileIndex (c : Char) : Int :=
  match "abcdefgh".toList.indexOf? c with
  | some n => (n : Int)
  | none => -1

/-- JS numeric coercion of a rank character (`8 - number` coerces the character).
A digit character yields its value; any other character yields `NaN`, modelled by
the out-of-every-range sentinel -1000 (see the header comment). -/
def jsDigitVal (c : Char) : Int :=
  if c.isDigit then (c.toNat : Int) - 48 else -1000

/-- JS `String.prototype.split` with a one-character separator, on the character
list of the string (e.g. `"".split("/") = [""]`, `"a/".split("/") = ["a",""]`). -/
def splitOnChar (sep : Char) : List Char → List (List Char)
  | [] => [[]]
  | c :: rest =>
    match splitOnChar sep rest with
    | [] => if c = sep then [[], []] else [[c]]
    | h :: t => if c = sep then [] :: h :: t else (c :: h) :: t

/-- Point.js `toAlgebraic()`: `"abcdefgh"[this.file] + (this.rank + 1)`.
JS indexing a string out of range gives `undefined`, which string-concatenates as
the text "undefined". -/
def Point.toAlgebraic (p : Point) : String :=
  (if 0 ≤ p.file ∧ p.file ≤ 7 then String.singleton (jsCharAt "abcdefgh" p.file.toNat)
   else "undefined")
  ++ toString (p.rank + 1)

/-- Point.js `setSquare(square)`: validates against `/^[a-h][1-8]$/` and throws
"Invalid square" otherwise (modelled as `none`); on success overwrites both fields
with `"abcdefgh".indexOf(letter)` and `8 - number`. -/
def Point.setSquare (p : Point) (square : String) : Option Point :=
  match square.toList with
  | [c1, c2] =>
    if ('a' ≤ c1 ∧ c1 ≤ 'h') ∧ ('1' ≤ c2 ∧ c2 ≤ '8') then
      some { p with file := jsFileIndex c1, rank := 8 - jsDigitVal c2 }
    else none
  | _ => none

/-- Point.js `_isInBounds(f, r)`. -/
def Point.isInBounds (f r : Int) : Bool :=
  0 ≤ f && f ≤ 7 && 0 ≤ r && r ≤ 7

/-- Point.js `get isValid()`. -/
def Point.isValid (p : Point) : Bool :=
  Point.isInBounds p.file p.rank

/-- The `while` loop of Point.js `getLine`: starting at `(f, r)`, while the
position is in bounds, push it (unless it is the origin) and step by `(dx, dy)`.
The fuel argument bounds the iteration count; 16 always suffices, because with a
nonzero delta at least one coordinate changes by at least 1 per step and can take
at most 8 in-bounds values, so the loop exits within 9 iterations. -/
def Point.lineLoop (p : Point) (dx dy : Int) : Nat → Int → Int → List Point
  | 0, _, _ => []
  | fuel + 1, f, r =>
    if 0 ≤ r ∧ r ≤ 7 ∧ 0 ≤ f ∧ f ≤ 7 then
      (if r = p.rank ∧ f = p.file then [] else [Point.mk f r])
        ++ Point.lineLoop p dx dy fuel (f + dx) (r + dy)
    else []

/-- Point.js `getLine(dx, dy)`: throws when both deltas are zero (modelled as
`none`), otherwise walks from the point until the board edge. -/
def Point.getLine (p : Point) (dx dy : Int) : Option (List Point) :=
  if dx = 0 ∧ dy = 0 then none
  else some (Point.lineLoop p dx dy 16 p.file p.rank)

/-- Point.js `getDiagonals()`.  The deltas are never both zero, so the inner
`getLine` calls cannot throw; `getD []` unwraps the always-`some` results. -/
def Point.getDiagonals (p : Point) : List (List Point) :=
  [(p.getLine 1 (-1)).getD [], (p.getLine 1 1).getD [],
   (p.getLine (-1) (-1)).getD [], (p.getLine (-1) 1).getD []]

/-- Point.js `getStraightLines()`. -/
def Point.getStraightLines (p : Point) : List (List Point) :=
  [(p.getLine (-1) 0).getD [], (p.getLine 1 0).getD [],
   (p.getLine 0 (-1)).getD [], (p.getLine 0 1).getD []]

/-- Point.js `getAllLines()`: straight lines then diagonals. -/
def Point.getAllLines (p : Point) : List (List Point) :=
  p.getStraightLines ++ p.getDiagonals

/-- Point.js `getSurroundingPoints()`: dy outer loop, dx inner loop, each from -1
to 1, skipping (0,0), keeping in-bounds neighbours. -/
def Point.getSurroundingPoints (p : Point) : List Point :=
  ([-1, 0, 1] : List Int).flatMap (fun dy =>
    ([-1, 0, 1] : List Int).filterMap (fun dx =>
      if dx = 0 ∧ dy = 0 then none
      else if Point.isInBounds (p.file + dx) (p.rank + dy) then
        some (Point.mk (p.file + dx) (p.rank + dy))
      else none))

/-- Point.js `getKnightPoints()`: the eight (file, rank) delta pairs in source
order, keeping in-bounds targets. -/
def Point.getKnightPoints (p : Point) : List Point :=
  ([(2, -1), (2, 1), (-2, -1), (-2, 1), (1, -2), (1, 2), (-1, -2), (-1, 2)] :
      List (Int × Int)).filterMap (fun d =>
    if Point.isInBounds (p.file + d.1) (p.rank + d.2) then
      some (Point.mk (p.file + d.1) (p.rank + d.2))
    else none)

/-- Pieces.js `get isKing()`. -/
def Piece.isKing (pc : Piece) : Bool :=
  pc.type == PieceType.king

/-- Pieces.js `getDiagonals()` delegates to the piece's point. -/
def Piece.getDiagonals (pc : Piece) : List (List Point) :=
  pc.point.getDiagonals

/-- Pieces.js `getStraightLines()`. -/
def Piece.getStraightLines (pc : Piece) : List (List Point) :=
  pc.point.getStraightLines

/-- Pieces.js `getAllLines()`. -/
def Piece.getAllLines (pc : Piece) : List (List Point) :=
  pc.point.getAllLines

/-- Pieces.js `getSurroundingPoints()`. -/
def Piece.getSurroundingPoints (pc : Piece) : List Point :=
  pc.point.getSurroundingPoints

/-- Pieces.js `getKnightPoints()`. -/
def Piece.getKnightPoints (pc : Piece) : List Point :=
  pc.point.getKnightPoints

/-- Pieces.js `getPointAhead()`: one rank toward the enemy side; `null` when the
resulting point is off the board. -/
def Piece.getPointAhead (pc : Piece) : Option Point :=
  let rankAhead := if pc.color = Color.black then pc.point.rank + 1 else pc.point.rank - 1
  let pointAhead : Point := Point.mk pc.point.file rankAhead
  if pointAhead.isValid then some pointAhead else none

/-- Board.js: `this.pieceList` is an array of 8 rows of 8 squares, each `null` or
a piece; the constructor comment orients it "8th rank to 1st". -/
structure Board where
  pieceList : List (List (Option Piece))
deriving DecidableEq

/-- Board.js constructor: an explicitly empty 8x8 board. -/
def Board.emptyBoard : Board :=
  Board.mk (List.replicate 8 (List.replicate 8 none))

/-- Board.js `algebraicToPoint(square)`: `new Point("abcdefgh".indexOf(square[0]),
8 - square[1])`. -/
def Board.algebraicToPoint (square : String) : Point :=
  Point.mk (jsFileIndex (jsCharAt square 0)) (8 - jsDigitVal (jsCharAt square 1))

/-- Board.js `getPieceAtSquare(square)`: reads `pieceList[point.rank][point.file]`.
With an out-of-range rank index JS indexes `undefined` and throws; with an
out-of-range file index it reads `undefined` from the row.  Neither branch is
reachable from a valid square, and both are modelled as `none`. -/
def Board.getPieceAtSquare (b : Board) (square : String) : Option Piece :=
  let point := Board.algebraicToPoint square
  if 0 ≤ point.rank ∧ point.rank ≤ 7 ∧ 0 ≤ point.file ∧ point.file ≤ 7 then
    (b.pieceList.getD point.rank.toNat []).getD point.file.toNat none
  else none

/-- Board.js `setPieceAtSquare(square, piece)`: first executes
`piece.point = point`, which throws a TypeError when `piece` is `null`
(modelled as `none`); then writes `pieceList[7 - point.rank][point.file]`.
An out-of-range row index makes `pieceList[row]` be `undefined` and the element
assignment throw (modelled as `none`); an out-of-range file index with an
in-range row silently sets an array property that in-range reads never see
(modelled as leaving the board unchanged). -/
def Board.setPieceAtSquare (b : Board) (square : String) (piece : Option Piece) :
    Option Board :=
  let point := Board.algebraicToPoint square
  match piece with
  | none => none
  | some pc =>
    let pc := { pc with point := point }
    let row := 7 - point.rank
    if 0 ≤ row ∧ row ≤ 7 then
      if 0 ≤ point.file ∧ point.file ≤ 7 then
        some (Board.mk (b.pieceList.set row.toNat
          ((b.pieceList.getD row.toNat []).set point.file.toNat (some pc))))
      else some b
    else none

/-- Board.js `clearSquare(square)`: calls `setPieceAtSquare(square, null)`. -/
def Board.clearSquare (b : Board) (square : String) : Option Board :=
  b.setPieceAtSquare square none

/-- Board.js `squareIsOccupied(square)`. -/
def Board.squareIsOccupied (b : Board) (square : String) : Bool :=
  b.getPieceAtSquare square != none

/-- Board.js `addPiece(type, color, square)`: constructs a piece of the selected
kind (the constructor initialises `point` to `null`, immediately overwritten by
`setPieceAtSquare`, so the placeholder value never escapes) and stores it. -/
def Board.addPiece (b : Board) (type : PieceType) (color : Color) (square : String) :
    Option Board :=
  let piece : Piece := Piece.mk type color (Point.mk 0 0)
  b.setPieceAtSquare square (some piece)

/-- Board.js `get pieces()`: filter `null` out of each row, then flatten the rows
in order. -/
def Board.pieces (b : Board) : List Piece :=
  (b.pieceList.map (fun row => row.filterMap id)).flatten

/-- The occupancy lookup used throughout the move generator:
`this.getPieceAtSquare(point.toAlgebraic())`. -/
def Board.occAt (b : Board) (p : Point) : Option Piece :=
  b.getPieceAtSquare p.toAlgebraic

/-- The inner `k` loop of Board.js `findUnblockedPointsOnLine`, for one line:
an empty square is pushed and the walk continues; a same-color piece sets
`blockedLine` without pushing; an opposite-color piece that is a king matches
none of the three branches, so nothing is pushed and `blockedLine` stays false
(the walk continues); any other opposite-color piece is pushed and sets
`blockedLine`. -/
def Board.walkLine (b : Board) (color : Color) : List Point → List Point
  | [] => []
  | p :: rest =>
    match b.occAt p with
    | none => p :: Board.walkLine b color rest
    | some pieceOnSquare =>
      if pieceOnSquare.color = color then []
      else if pieceOnSquare.type = PieceType.king then Board.walkLine b color rest
      else [p]

/-- Board.js `findUnblockedPointsOnLine(lines, color)`: traverse each line with a
fresh `blockedLine` flag, accumulating into one list. -/
def Board.findUnblockedPointsOnLine (b : Board) (lines : List (List Point))
    (color : Color) : List Point :=
  (lines.map (b.walkLine color)).flatten

/-- Board.js `findUnblockedPoints(pointList, color, includeCaptures)`: a discrete
point is valid when empty, or when captures are included and it holds an
opposite-color piece that is not a king. -/
def Board.findUnblockedPoints (b : Board) (pointList : List Point) (color : Color)
    (includeCaptures : Bool) : List Point :=
  pointList.filter (fun point =>
    match b.occAt point with
    | none => true
    | some pieceOnSquare =>
      includeCaptures && pieceOnSquare.color != color && !pieceOnSquare.isKing)

/-- Board.js `getPawnPseudoMoves(piece)`: builds an empty `pointList`, computes
`getPointAhead` (the `pointList.concat` result is discarded, so nothing is ever
accumulated) and has no return statement, so the JS function returns `undefined`. -/
def Board.getPawnPseudoMoves (_b : Board) (piece : Piece) : Option (List Point) :=
  let _pointAhead := piece.getPointAhead
  none

/-- Board.js `getpseudoLegalMovesForPiece(piece)`: each case of the switch
computes the candidate list into the local `pseudoMoves` (logged to the console)
and then hits `break`; no case has a return statement, so the JS function returns
`undefined` for every piece kind (modelled as `none`). -/
def Board.getpseudoLegalMovesForPiece (b : Board) (piece : Piece) :
    Option (List Point) :=
  match piece.type with
  | PieceType.bishop =>
    let _pseudoMoves := b.findUnblockedPointsOnLine piece.getDiagonals piece.color
    none
  | PieceType.rook =>
    let _pseudoMoves := b.findUnblockedPointsOnLine piece.getStraightLines piece.color
    none
  | PieceType.queen =>
    let _pseudoMoves := b.findUnblockedPointsOnLine piece.getAllLines piece.color
    none
  | PieceType.king =>
    let _pseudoMoves := b.findUnblockedPoints piece.getSurroundingPoints piece.color true
    none
  | PieceType.knight =>
    let _pseudoMoves := b.findUnblockedPoints piece.getKnightPoints piece.color true
    none
  | PieceType.pawn =>
    let _pointList := b.getPawnPseudoMoves piece
    none

/-- Board.js `getpseudoLegalMoves()`: folds over `this.pieces`, concatenating
`newMoves` only when it is truthy (`undefined` is skipped by `if (newMoves)`). -/
def Board.getpseudoLegalMoves (b : Board) : List Point :=
  b.pieces.foldl (fun moves piece =>
    match b.getpseudoLegalMovesForPiece piece with
    | some newMoves => moves ++ newMoves
    | none => moves) []

/-- The piece-placement switch of Board.js `setPositionFromFEN`: the six
recognised (upper-cased) piece letters; any other character matches no case and
places nothing. -/
def pieceTypeOfChar (c : Char) : Option PieceType :=
  if c = 'P' then some PieceType.pawn
  else if c = 'B' then some PieceType.bishop
  else if c = 'N' then some PieceType.knight
  else if c = 'R' then some PieceType.rook
  else if c = 'K' then some PieceType.king
  else if c = 'Q' then some PieceType.queen
  else none

/-- The inner `while (file <= 8 && index < str.length)` loop of
`setPositionFromFEN`, over one FEN row: a digit advances `file` by its value; any
other character is taken as a piece letter (lower case means black), a square
name is computed from the current `(file, rank)` and the recognised pieces are
placed via `addPiece`; unrecognised characters fall through the switch and just
advance `file`. -/
def fenRowLoop (b : Board) (rank : Int) : Int → List Char → Option Board
  | _, [] => some b
  | file, c :: rest =>
    if file > 8 then some b
    else if c.isDigit then fenRowLoop b rank (file + ((c.toNat : Int) - 48)) rest
    else
      let color := if c = 'r' ∨ c = 'n' ∨ c = 'b' ∨ c = 'k' ∨ c = 'q' ∨ c = 'p'
        then Color.black else Color.white
      let point : Point := Point.mk file rank
      let square := point.toAlgebraic
      match pieceTypeOfChar c.toUpper with
      | some t =>
        match b.addPiece t color square with
        | some b2 => fenRowLoop b2 rank (file + 1) rest
        | none => none
      | none => fenRowLoop b rank (file + 1) rest

/-- Board.js `setPositionFromFEN(fenString)`: split off the first
space-separated field, split it on "/", and process rows 0 through 7.  When the
placement field has fewer than 8 rows, `rows[i]` is `undefined` and reading
`str.length` throws a TypeError (modelled as `none`). -/
def Board.setPositionFromFEN (b : Board) (fenString : String) : Option Board :=
  let parts := splitOnChar ' ' fenString.toList
  let boardString := parts.headD []
  let rows := splitOnChar '/' boardString
  (List.range 8).foldlM (fun bd i =>
    match rows[i]? with
    | none => none
    | some str => fenRowLoop bd (Int.ofNat i) 0 str) b

/-- Scenario: a white rook placed on an otherwise empty board at "d4" via
`addPiece` (the placement always succeeds on a valid square; `getD` unwraps). -/
def bdRookD4 : Board :=
  (Board.emptyBoard.addPiece PieceType.rook Color.white "d4").getD Board.emptyBoard

/-- Scenario: the rook board with a friendly (white) pawn added on "d6". -/
def bdRookFriendD6 : Board :=
  (bdRookD4.addPiece PieceType.pawn Color.white "d6").getD Board.emptyBoard

/-- Scenario: the rook board with the enemy (black) king added on "d6". -/
def bdRookEnemyKingD6 : Board :=
  (bdRookD4.addPiece PieceType.king Color.black "d6").getD Board.emptyBoard

/-- Scenario: the rook board with an enemy (black) pawn added on "d6". -/
def bdRookEnemyPawnD6 : Board :=
  (bdRookD4.addPiece PieceType.pawn Color.black "d6").getD Board.emptyBoard

/-- The ray of the rook's coordinate that contains the coordinate of "d6": from
the rook's point `(3, 4)`, direction `(0, -1)` toward decreasing rank index,
i.e. the points `[(3,3), (3,2), (3,1), (3,0)]`. -/
def rayTowardD6 : List Point :=
  ((Board.algebraicToPoint "d4").getLine 0 (-1)).getD []

/-- All 64 points of the board, file-major. -/
def allPoints : List Point :=
  (List.range 8).flatMap (fun f => (List.range 8).map (fun r =>
    Point.mk (Int.ofNat f) (Int.ofNat r)))

/-- All 64 algebraic square names, produced by the source's own
`Point.toAlgebraic` over the 64 in-bounds points. -/
def allSquares : List String :=
  allPoints.map Point.toAlgebraic

/-- The candidate list computed (and discarded) inside the rook case of
`getpseudoLegalMovesForPiece` on the `bdRookD4` scenario. -/
def rookD4Candidates : List Point :=
  bdRookD4.findUnblockedPointsOnLine (Point.getStraightLines (Point.mk 3 4)) Color.white

/-- The eight ray directions: the exact delta pairs passed to `getLine` by
`getDiagonals` and `getStraightLines`. -/
def rayDirections : List (Int × Int) :=
  [(1, -1), (1, 1), (-1, -1), (-1, 1), (-1, 0), (1, 0), (0, -1), (0, 1)]

/-- Chebyshev distance between two points. -/
def cheb (p q : Point) : Nat :=
  max (q.file - p.file).natAbs (q.rank - p.rank).natAbs

/-- Claim C4 helper: no case of `getpseudoLegalMovesForPiece` returns a value. -/
lemma getpseudoLegalMovesForPiece_eq_none (b : Board) (piece : Piece) :
    b.getpseudoLegalMovesForPiece piece = none := by
  cases h : piece.type <;> simp [Board.getpseudoLegalMovesForPiece, h]

/-- Claim C4: for every board state whatsoever, `getpseudoLegalMoves()` returns
the empty list, because `getpseudoLegalMovesForPiece` returns no value
(`undefined`) for every piece kind, so the aggregator's `if (newMoves)` guard
discards every per-piece result. -/
theorem claim4_pseudo_moves_always_empty (b : Board) :
    b.getpseudoLegalMoves = [] ∧
      ∀ piece : Piece, b.getpseudoLegalMovesForPiece piece = none := by
  refine ⟨?_, fun piece => getpseudoLegalMovesForPiece_eq_none b piece⟩
  show b.pieces.foldl _ [] = []
  have h : ∀ (l : List Piece) (acc : List Point),
      l.foldl (fun moves piece =>
        match b.getpseudoLegalMovesForPiece piece with
        | some newMoves => moves ++ newMoves
        | none => moves) acc = acc := by
    intro l
    induction l with
    | nil => intro acc; rfl
    | cons p t ih =>
      intro acc
      simp [List.foldl, getpseudoLegalMovesForPiece_eq_none b p, ih]
  exact h b.pieces []

/-- Claim C1 (code bug, evaluation at the failing input): on the board with a
single white rook at "d4", the enumerator `getpseudoLegalMovesForPiece` returns
no value (`undefined`, modelled `none`) although the candidate list it computes
internally — `findUnblockedPointsOnLine` over the rook's straight lines — is
exactly the 14 coordinates sharing file 3 or rank 4 with the rook's point
`(3, 4)`, that point itself excluded. -/
theorem claim1_missing_return_eval :
    bdRookD4.pieces = [Piece.mk PieceType.rook Color.white (Point.mk 3 4)]
    ∧ bdRookD4.getpseudoLegalMovesForPiece
        (Piece.mk PieceType.rook Color.white (Point.mk 3 4)) = none
    ∧ rookD4Candidates =
        [Point.mk 2 4, Point.mk 1 4, Point.mk 0 4,
         Point.mk 4 4, Point.mk 5 4, Point.mk 6 4, Point.mk 7 4,
         Point.mk 3 3, Point.mk 3 2, Point.mk 3 1, Point.mk 3 0,
         Point.mk 3 5, Point.mk 3 6, Point.mk 3 7]
    ∧ (allPoints.all (fun q =>
        decide (q ∈ rookD4Candidates ↔
          ((q.file = 3 ∨ q.rank = 4) ∧ q ≠ Point.mk 3 4)))) = true := by
  refine ⟨by decide, by decide, by decide, by decide⟩

/-- Claim C5 (code bug, evaluation at the failing input): converting "a8" (and
"d4") to a coordinate and back does not round-trip: `toAlgebraic` computes the
rank digit as `rank + 1` while `algebraicToPoint` and `setSquare` compute the
rank index as `8 - digit`, so the composition mirrors the rank ("a8" comes back
as "a1", "d4" as "d5"). -/
theorem claim5_roundtrip_eval :
    Point.toAlgebraic (Board.algebraicToPoint "a8") = "a1"
    ∧ Point.toAlgebraic (Board.algebraicToPoint "d4") = "d5"
    ∧ ((Point.mk 0 0).setSquare "a8").map Point.toAlgebraic = some "a1" := by
  refine ⟨by decide, by decide, by decide⟩

/-- Claim C6 (code bug, evaluation at the failing input): after placing a white
rook at "a1" on an empty board, `getPieceAtSquare "a1"` returns nothing — the
piece was stored in the vertically mirrored row (`setPieceAtSquare` writes row
`7 - point.rank` while `getPieceAtSquare` reads row `point.rank`), where the
query for "a8" finds it. -/
theorem claim6_place_then_query_eval :
    (Board.emptyBoard.addPiece PieceType.rook Color.white "a1").map
        (fun b => (b.getPieceAtSquare "a1", b.getPieceAtSquare "a8"))
      = some (none, some (Piece.mk PieceType.rook Color.white (Point.mk 0 7))) := by
  decide

/-- The board produced by loading the FEN placement "8/8/8/8/8/8/8/R7" onto an
empty board. -/
def fenBoardR7 : Board :=
  (Board.emptyBoard.setPositionFromFEN "8/8/8/8/8/8/8/R7").getD Board.emptyBoard

/-- Claim C7: loading "8/8/8/8/8/8/8/R7" succeeds, `getPieceAtSquare "a1"`
returns a white rook, and every other one of the 64 squares is empty. -/
theorem claim7_fen_rook_a1 :
    Board.emptyBoard.setPositionFromFEN "8/8/8/8/8/8/8/R7" = some fenBoardR7
    ∧ fenBoardR7.getPieceAtSquare "a1" =
        some (Piece.mk PieceType.rook Color.white (Point.mk 0 0))
    ∧ (allSquares.all (fun s =>
        s == "a1" || (fenBoardR7.getPieceAtSquare s).isNone)) = true := by
  refine ⟨by decide, by decide, by decide⟩

/-- Claim C8 (code bug): `clearSquare` never succeeds on any board and any
square: it calls `setPieceAtSquare(square, null)`, whose first statement
`piece.point = point` dereferences `null` and throws a TypeError. -/
theorem claim8_clear_always_crashes (b : Board) (square : String) :
    b.clearSquare square = none := rfl

/-- Claim C9 counterexample: the structurally invalid placement field
"zzzzzzzz/8/8/8/8/8/8/8" (eight unrecognised characters in the first rank) is
loaded without any error: `setPositionFromFEN` returns normally and every
unrecognised character is silently skipped, leaving the board empty — so the
parser does not fail with a MalformedInput error on structurally invalid input. -/
theorem claim9_no_malformed_input_error_counterexample :
    Board.emptyBoard.setPositionFromFEN "zzzzzzzz/8/8/8/8/8/8/8"
      = some Board.emptyBoard := by
  decide

/-- Claim C9 amended: `setPositionFromFEN` performs no structural validation and
has no MalformedInput error: unrecognised characters are silently skipped (each
consuming one file), a digit overflowing the rank silently ends that row, and a
placement field with fewer than eight ranks crashes with a TypeError (modelled
`none`) rather than a structured error. -/
theorem claim9_amended_silent_parse :
    Board.emptyBoard.setPositionFromFEN "zzzzzzzz/8/8/8/8/8/8/8"
        = some Board.emptyBoard
    ∧ Board.emptyBoard.setPositionFromFEN "99/8/8/8/8/8/8/8"
        = some Board.emptyBoard
    ∧ Board.emptyBoard.setPositionFromFEN "8/8/8" = none := by
  refine ⟨by decide, by decide, by decide⟩

/-- Claim C3 counterexample: with a white rook at "d4" and the black king on the
"d6" coordinate `(3, 2)`, walking the containing ray does NOT stop at the king:
the king's square is skipped without setting `blockedLine`, and the squares
beyond the king — `(3, 1)` and `(3, 0)` — are still yielded, refuting "the walk
stops" and "no square beyond the king on that ray is yielded" (the king's own
square is indeed absent). -/
theorem claim3_king_stop_counterexample :
    bdRookEnemyKingD6.occAt (Point.mk 3 2)
        = some (Piece.mk PieceType.king Color.black (Point.mk 3 2))
    ∧ bdRookEnemyKingD6.findUnblockedPointsOnLine [rayTowardD6] Color.white
        = [Point.mk 3 3, Point.mk 3 1, Point.mk 3 0] := by
  refine ⟨by decide, by decide⟩

/-- Unfolding equation for the inner loop on an empty line. -/
lemma walkLine_nil (b : Board) (c : Color) : b.walkLine c [] = [] := rfl

/-- Unfolding equation for the inner loop on a nonempty line. -/
lemma walkLine_cons (b : Board) (c : Color) (p : Point) (rest : List Point) :
    b.walkLine c (p :: rest) =
      (match b.occAt p with
      | none => p :: b.walkLine c rest
      | some pieceOnSquare =>
        if pieceOnSquare.color = c then []
        else if pieceOnSquare.type = PieceType.king then b.walkLine c rest
        else [p]) := rfl

/-- Characterisation of one inner-loop pass of `findUnblockedPointsOnLine`: if
the first `j` squares of a line are empty and the square at index `j` is
occupied, a same-color occupant stops the walk with exactly the `j` empty
squares collected, and an opposite-color non-king occupant stops it with the
occupant's square collected as well. -/
lemma walkLine_blocked_take (b : Board) (c : Color) :
    ∀ (L : List Point) (j : Nat) (pj : Point),
      (∀ q ∈ L.take j, b.occAt q = none) →
      L[j]? = some pj →
      (∀ pc, b.occAt pj = some pc → pc.color = c →
          b.walkLine c L = L.take j)
      ∧ (∀ pc, b.occAt pj = some pc → pc.color ≠ c → pc.type ≠ PieceType.king →
          b.walkLine c L = L.take (j + 1)) := by
  intro L
  induction L with
  | nil => intro j pj _ hj; simp at hj
  | cons p rest ih =>
    intro j pj hemp hj
    cases j with
    | zero =>
      rw [List.getElem?_cons_zero] at hj
      injection hj with hj
      subst hj
      constructor
      · intro pc hocc hcol
        rw [walkLine_cons, hocc]
        simp [hcol]
      · intro pc hocc hcol hking
        rw [walkLine_cons, hocc]
        simp [hcol, hking]
    | succ j' =>
      have h0 : b.occAt p = none := hemp p (by simp)
      have hemp' : ∀ q ∈ rest.take j', b.occAt q = none := by
        intro q hq
        exact hemp q (by simp [hq])
      have hj' : rest[j']? = some pj := by simpa using hj
      obtain ⟨ihA, ihB⟩ := ih j' pj hemp' hj'
      constructor
      · intro pc hocc hcol
        rw [walkLine_cons, h0]
        simp [ihA pc hocc hcol]
      · intro pc hocc hcol hking
        rw [walkLine_cons, h0]
        simp [ihB pc hocc hcol hking]

/-- `findUnblockedPointsOnLine` on a single line is one inner-loop pass. -/
lemma findUnblockedPointsOnLine_singleton (b : Board) (c : Color) (L : List Point) :
    b.findUnblockedPointsOnLine [L] c = b.walkLine c L := by
  simp [Board.findUnblockedPointsOnLine]

/-- Claim C2: walking a ray nearest-to-farthest, the empty squares before the
first occupied square are all collected; a same-color occupant at index `j`
stops the walk with that square excluded (result = first `j` squares), and an
opposite-color non-king occupant stops the walk with that square included
(result = first `j + 1` squares). -/
theorem claim2_ray_blocking (b : Board) (c : Color) (L : List Point) (j : Nat)
    (pj : Point)
    (hemp : ∀ q ∈ L.take j, b.occAt q = none)
    (hj : L[j]? = some pj) :
    (∀ pc, b.occAt pj = some pc → pc.color = c →
        b.findUnblockedPointsOnLine [L] c = L.take j)
    ∧ (∀ pc, b.occAt pj = some pc → pc.color ≠ c → pc.type ≠ PieceType.king →
        b.findUnblockedPointsOnLine [L] c = L.take (j + 1)) := by
  obtain ⟨hA, hB⟩ := walkLine_blocked_take b c L j pj hemp hj
  exact ⟨fun pc h1 h2 => by rw [findUnblockedPointsOnLine_singleton]; exact hA pc h1 h2,
         fun pc h1 h2 h3 => by rw [findUnblockedPointsOnLine_singleton]; exact hB pc h1 h2 h3⟩

/-- Witness for claim C2 at the concrete scenario of the claim: a white rook on
"d4" and a friendly white pawn on "d6"; on the ray containing the pawn's
coordinate, only the first square (the "d5" coordinate `(3, 3)`) is yielded and
the pawn's square is excluded. -/
theorem claim2_ray_blocking_witness :
    bdRookFriendD6.findUnblockedPointsOnLine [rayTowardD6] Color.white
      = rayTowardD6.take 1 :=
  (claim2_ray_blocking bdRookFriendD6 Color.white rayTowardD6 1 (Point.mk 3 2)
      (by decide) (by decide)).1
    (Piece.mk PieceType.pawn Color.white (Point.mk 3 2)) (by decide) rfl

/-- Every point collected by the inner loop is, when occupied at all, occupied
by an opposite-color piece that is not a king; in particular the enemy king's
square is never collected. -/
lemma walkLine_mem_not_own_not_king (b : Board) (c : Color) :
    ∀ (L : List Point) (p : Point), p ∈ b.walkLine c L →
      ∀ pc, b.occAt p = some pc → pc.color ≠ c ∧ pc.type ≠ PieceType.king := by
  intro L
  induction L with
  | nil => intro p hp; simp [walkLine_nil] at hp
  | cons q rest ih =>
    intro p hp pc hocc
    cases hq : b.occAt q with
    | none =>
      simp only [walkLine_cons, hq] at hp
      rcases List.mem_cons.mp hp with rfl | hp'
      · rw [hocc] at hq; cases hq
      · exact ih p hp' pc hocc
    | some pc' =>
      simp only [walkLine_cons, hq] at hp
      by_cases h1 : pc'.color = c
      · simp [h1] at hp
      · by_cases h2 : pc'.type = PieceType.king
        · simp [h1, h2] at hp
          exact ih p hp pc hocc
        · simp [h1, h2] at hp
          subst hp
          rw [hq] at hocc
          injection hocc with h
          subst h
          exact ⟨h1, h2⟩

/-- Claim C3 amended: when a walked ray reaches the enemy king's square, that
square is not added, but the walk does NOT stop: `blockedLine` is never set in
that branch, so the walk continues to the squares beyond the king.  What does
hold is that the enemy king's square (indeed any own-color or enemy-king
square) is never among the collected pseudo-move candidates. -/
theorem claim3_amended_king_never_candidate (b : Board) (c : Color)
    (lines : List (List Point)) :
    (∀ p ∈ b.findUnblockedPointsOnLine lines c,
        ∀ pc, b.occAt p = some pc → pc.color ≠ c ∧ pc.type ≠ PieceType.king)
    ∧ (∀ (p : Point) (rest : List Point) (pc : Piece),
        b.occAt p = some pc → pc.color ≠ c → pc.type = PieceType.king →
        b.walkLine c (p :: rest) = b.walkLine c rest) := by
  constructor
  · intro p hp pc hocc
    rw [Board.findUnblockedPointsOnLine] at hp
    obtain ⟨l, hl, hpl⟩ := List.mem_flatten.mp hp
    obtain ⟨L, _hL, rfl⟩ := List.mem_map.mp hl
    exact walkLine_mem_not_own_not_king b c L p hpl pc hocc
  · intro p rest pc hocc h1 h2
    rw [walkLine_cons, hocc]
    simp [h1, h2]

/-- Witness for the amended claim C3: with a white rook on "d4" and a black pawn
on "d6", the pawn's square `(3, 2)` is among the yielded candidates, and the
theorem instantiated there certifies its occupant is opposite-colored and not a
king. -/
theorem claim3_amended_king_never_candidate_witness :
    (Piece.mk PieceType.pawn Color.black (Point.mk 3 2)).color ≠ Color.white
    ∧ (Piece.mk PieceType.pawn Color.black (Point.mk 3 2)).type ≠ PieceType.king :=
  (claim3_amended_king_never_candidate bdRookEnemyPawnD6 Color.white
      [rayTowardD6]).1
    (Point.mk 3 2) (by decide)
    (Piece.mk PieceType.pawn Color.black (Point.mk 3 2)) (by decide)

/-- Unfolding equation for the ray loop with no fuel. -/
lemma lineLoop_zero (p : Point) (dx dy f r : Int) :
    Point.lineLoop p dx dy 0 f r = [] := rfl

/-- Unfolding equation for the ray loop with remaining fuel. -/
lemma lineLoop_succ (p : Point) (dx dy : Int) (fuel : Nat) (f r : Int) :
    Point.lineLoop p dx dy (fuel + 1) f r =
      (if 0 ≤ r ∧ r ≤ 7 ∧ 0 ≤ f ∧ f ≤ 7 then
        (if r = p.rank ∧ f = p.file then [] else [Point.mk f r])
          ++ Point.lineLoop p dx dy fuel (f + dx) (r + dy)
      else []) := rfl

/-- Every point the ray loop pushes was pushed under the in-bounds guard. -/
lemma lineLoop_mem_bounds (p : Point) (dx dy : Int) :
    ∀ (fuel : Nat) (f r : Int), ∀ q ∈ Point.lineLoop p dx dy fuel f r,
      0 ≤ q.file ∧ q.file ≤ 7 ∧ 0 ≤ q.rank ∧ q.rank ≤ 7 := by
  intro fuel
  induction fuel with
  | zero => intro f r q hq; simp [lineLoop_zero] at hq
  | succ n ih =>
    intro f r q hq
    rw [lineLoop_succ] at hq
    by_cases hb : 0 ≤ r ∧ r ≤ 7 ∧ 0 ≤ f ∧ f ≤ 7
    · rw [if_pos hb] at hq
      rcases List.mem_append.mp hq with h1 | h2
      · by_cases ho : r = p.rank ∧ f = p.file
        · rw [if_pos ho] at h1; simp at h1
        · rw [if_neg ho] at h1
          simp at h1
          subst h1
          exact ⟨hb.2.2.1, hb.2.2.2, hb.1, hb.2.1⟩
      · exact ih (f + dx) (r + dy) q h2
    · rw [if_neg hb] at hq; simp at hq

/-- For a unit direction, the point `k` steps along the ray from `p` is at
Chebyshev distance exactly `k` from `p`. -/
lemma cheb_step (p : Point) (dx dy : Int)
    (ha : dx.natAbs ≤ 1) (hb : dy.natAbs ≤ 1)
    (hmax : max dx.natAbs dy.natAbs = 1) (k : Nat) :
    cheb p (Point.mk (p.file + (k : Int) * dx) (p.rank + (k : Int) * dy)) = k := by
  unfold cheb
  have e1 : p.file + (k : Int) * dx - p.file = (k : Int) * dx := by ring
  have e2 : p.rank + (k : Int) * dy - p.rank = (k : Int) * dy := by ring
  simp only [e1, e2, Int.natAbs_mul, Int.natAbs_ofNat]
  have ha' : dx.natAbs = 0 ∨ dx.natAbs = 1 := by omega
  have hb' : dy.natAbs = 0 ∨ dy.natAbs = 1 := by omega
  rcases ha' with h | h <;> rcases hb' with h2 | h2 <;>
    rw [h, h2] at hmax ⊢ <;> simp_all

/-- Along a ray in a unit direction, starting `k` steps from the origin: every
pushed point is at Chebyshev distance at least `max k 1` from the origin, and
the pushed points have strictly increasing Chebyshev distances. -/
lemma lineLoop_chain (p : Point) (dx dy : Int)
    (ha : dx.natAbs ≤ 1) (hb : dy.natAbs ≤ 1)
    (hmax : max dx.natAbs dy.natAbs = 1) :
    ∀ (fuel k : Nat) (f r : Int),
      f = p.file + (k : Int) * dx → r = p.rank + (k : Int) * dy →
      (∀ q ∈ Point.lineLoop p dx dy fuel f r, max k 1 ≤ cheb p q)
      ∧ List.Chain' (fun a b2 => cheb p a < cheb p b2)
          (Point.lineLoop p dx dy fuel f r) := by
  intro fuel
  induction fuel with
  | zero => intro k f r hf hr; simp [lineLoop_zero]
  | succ n ih =>
    intro k f r hf hr
    have hstepf : f + dx = p.file + ((k + 1 : Nat) : Int) * dx := by
      rw [hf]; push_cast; ring
    have hstepr : r + dy = p.rank + ((k + 1 : Nat) : Int) * dy := by
      rw [hr]; push_cast; ring
    obtain ⟨ih1, ih2⟩ := ih (k + 1) (f + dx) (r + dy) hstepf hstepr
    rw [lineLoop_succ]
    by_cases hbnd : 0 ≤ r ∧ r ≤ 7 ∧ 0 ≤ f ∧ f ≤ 7
    · rw [if_pos hbnd]
      by_cases ho : r = p.rank ∧ f = p.file
      · rw [if_pos ho]
        simp only [List.nil_append]
        exact ⟨fun q hq => by have := ih1 q hq; omega, ih2⟩
      · rw [if_neg ho]
        simp only [List.singleton_append]
        have hch : cheb p (Point.mk f r) = k := by
          rw [hf, hr]; exact cheb_step p dx dy ha hb hmax k
        have hk1 : 1 ≤ k := by
          rcases Nat.eq_zero_or_pos k with h0 | h
          · exfalso
            apply ho
            subst h0
            exact ⟨by rw [hr]; push_cast; ring, by rw [hf]; push_cast; ring⟩
          · exact h
        constructor
        · intro q hq
          rcases List.mem_cons.mp hq with rfl | hq'
          · rw [hch]; omega
          · have := ih1 q hq'; omega
        · rw [List.chain'_cons']
          refine ⟨fun y hy => ?_, ih2⟩
          have := ih1 y (List.mem_of_mem_head? hy)
          rw [hch]
          omega
    · rw [if_neg hbnd]
      simp

/-- Claim C10: for every origin and each of the eight ray directions, `getLine`
succeeds, every yielded coordinate is in bounds, and each yielded coordinate is
strictly farther (Chebyshev) from the origin than the previously yielded one. -/
theorem claim10_ray_bounds_chebyshev (p : Point) (dx dy : Int)
    (hdir : (dx, dy) ∈ rayDirections) (L : List Point)
    (hL : p.getLine dx dy = some L) :
    (∀ q ∈ L, 0 ≤ q.file ∧ q.file ≤ 7 ∧ 0 ≤ q.rank ∧ q.rank ≤ 7)
    ∧ List.Chain' (fun a b2 => cheb p a < cheb p b2) L := by
  have hvals : dx.natAbs ≤ 1 ∧ dy.natAbs ≤ 1 ∧ max dx.natAbs dy.natAbs = 1 := by
    have hall : ∀ d ∈ rayDirections,
        d.1.natAbs ≤ 1 ∧ d.2.natAbs ≤ 1 ∧ max d.1.natAbs d.2.natAbs = 1 := by
      decide
    exact hall (dx, dy) hdir
  have hnz : ¬(dx = 0 ∧ dy = 0) := by
    rintro ⟨rfl, rfl⟩
    exact absurd hvals.2.2 (by decide)
  simp only [Point.getLine, if_neg hnz] at hL
  injection hL with hL
  subst hL
  constructor
  · exact lineLoop_mem_bounds p dx dy 16 p.file p.rank
  · exact (lineLoop_chain p dx dy hvals.1 hvals.2.1 hvals.2.2 16 0 p.file p.rank
      (by push_cast; ring) (by push_cast; ring)).2

/-- Witness for claim C10: the ray from `(3, 4)` in direction `(0, 1)` is
`[(3,5), (3,6), (3,7)]`, and its Chebyshev distances from the origin strictly
increase. -/
theorem claim10_ray_bounds_chebyshev_witness :
    List.Chain' (fun a b2 => cheb (Point.mk 3 4) a < cheb (Point.mk 3 4) b2)
      [Point.mk 3 5, Point.mk 3 6, Point.mk 3 7] :=
  (claim10_ray_bounds_chebyshev (Point.mk 3 4) 0 1 (by decide)
    [Point.mk 3 5, Point.mk 3 6, Point.mk 3 7] (by decide)).2
